import Mathlib

/-!
Verification of the cache-aside data endpoints of a personal portfolio site.

The development shallowly embeds the server routes of the repository:

* `src/server/api/cargo/packages/index.get.ts`       — crates.io packages endpoint
* `src/server/api/github/contributions/index.get.ts` — GitHub contributions endpoint
                                                        and the starred-repos handler
                                                        appended in the same file
* `src/server/api/cache/invalidate.get.ts`           — cache invalidation endpoint
* `src/server/api/strava/auth/refresh/index.post.ts` — Strava token refresh
                                                        (plus the variant handler in
                                                        `src/unnamed/part_000`)

Modelling conventions:

* The Upstash key-value store is a function `String → Option String`; its
  client's automatic JSON (de)serialization is abstracted as the identity on
  the stored serialized value, so a `get` returns exactly the string last
  written by `setex` for that key.
* Asynchronous calls are modelled by explicit outcome parameters: a store read
  that may reject is an extra `readFail` flag, a fire-and-forget write that may
  reject is a `writeFail` flag, an upstream `$fetch` is a function into
  `Except Unit _` (`.error` = rejected promise).
* JavaScript truthiness on strings is modelled explicitly: `""`, `null` and
  `undefined` are falsy, every other string is truthy.
* `JSON.stringify` is an external library function; handlers take it as an
  opaque `stringify` parameter.
* Unbounded `while` / `do…while` loops take a fuel argument; `none` as the
  overall handler result means the loop consumed all fuel without finishing.
-/

/-! ## String utilities

`String.toLowerCase` and `localeCompare` from JavaScript are modelled over the
underlying character lists (code-point order; for the ASCII names involved the
default-locale comparison coincides with code-point comparison on the
lowercased strings). -/

/-- ASCII lowercasing of one character, as `String.prototype.toLowerCase`
acts on the ASCII range. -/
def lowerChar (c : Char) : Char :=
  if 'A' ≤ c ∧ c ≤ 'Z' then Char.ofNat (c.toNat + 32) else c

/-- Model of `s.toLowerCase()`. -/
def lowerStr (s : String) : String := ⟨s.data.map lowerChar⟩

/-- Lexicographic (code-point) comparison of character lists; models
`a.localeCompare(b) <= 0` for the ASCII identifiers that occur as names. -/
def lexLe : List Char → List Char → Bool
  | [], _ => true
  | _ :: _, [] => false
  | a :: as, b :: bs => if a = b then lexLe as bs else decide (a < b)

/-- `divergesB l₁ l₂` holds when the two lists disagree at some position that
both of them reach; two strings extending such lists can never be equal. -/
def divergesB : List Char → List Char → Bool
  | [], _ => false
  | _, [] => false
  | a :: as, b :: bs => if a = b then divergesB as bs else true

/-! ## Key-value store model -/

/-- The remote key-value store: each key holds at most one string value. -/
def Store := String → Option String

/-- A `setex`-style write (the TTL only bounds the entry's lifetime and is not
modelled): unconditionally overwrites the value under `k`. -/
def storeSet (σ : Store) (k v : String) : Store :=
  fun k' => if k' = k then some v else σ k'

/-- The store with no entries. -/
def emptyStore : Store := fun _ => none

-- Equality of `Except` outcomes is decidable componentwise.
deriving instance DecidableEq for Except

/-- Outcome of one request to a data endpoint.  `result` is the value the
framework would serialize into the HTTP response: `.error` is a rejected
handler (uncaught exception), `.inl` is the raw cached string returned on a
hit, `.inr` is the freshly fetched record list.  `cacheHeader` is the
`x-redis-cache` header if the handler set one, and `store` is the key-value
store as left behind by the request. -/
structure HandlerOut (α : Type) where
  result : Except Unit (Sum String α)
  cacheHeader : Option String
  store : Store

/-! ## crates.io packages endpoint (`src/server/api/cargo/packages/index.get.ts`)

`CargoPackage` is imported by the route from a type file that is not part of
the source slice; the handler itself touches only the `downloads` field (its
sort comparator) and the spec identifies packages by name, so the model keeps
exactly those two fields. -/

structure CargoPackage where
  name : String
  downloads : Nat
deriving DecidableEq, Repr

/-- One crates.io response, with the `meta` wrapper of the source's
`CargoResponse` flattened: `next_page` stands for `meta.next_page`.
`crates` is `Array<CargoPackage> | null`. -/
structure CargoResponse where
  crates : Option (List CargoPackage)
  next_page : Option String
deriving DecidableEq, Repr

/-- Lines 48–50: `if (response?.crates && Array.isArray(response.crates))
packages.push(...(response.crates ?? []))` — a null `crates` contributes
nothing, an array contributes its elements. -/
def pageCrates (r : CargoResponse) : List CargoPackage :=
  match r.crates with
  | some l => l
  | none => []

/-- The initial request URL (line 36–38); `config.cargoUserId` is checked for
truthiness, an empty id yields `null` and no request at all. -/
def cargoInitUrl (userId : String) : Option String :=
  if userId = "" then none
  else some ("https://crates.io/api/v1/crates?page=1&per_page=10&sort=alpha&user_id=" ++ userId)

/-- The `while (url)` loop of lines 40–53: request the current URL, append the
page's crates, continue with `response.meta.next_page`.  JavaScript truthiness
makes both `null` and `""` stop the loop.  Returns the list of URLs actually
requested together with the accumulated packages; a rejected `$fetch`
propagates (`.error`), and `none` means the fuel ran out. -/
def cargoFetchLoop (fetchU : String → Except Unit CargoResponse) :
    Option String → Nat → Option (Except Unit (List String × List CargoPackage))
  | none, _ => some (.ok ([], []))
  | some u, 0 => if u = "" then some (.ok ([], [])) else none
  | some u, fuel + 1 =>
    if u = "" then some (.ok ([], []))
    else
      match fetchU u with
      | .error e => some (.error e)
      | .ok r =>
        match cargoFetchLoop fetchU r.next_page fuel with
        | none => none
        | some (.error e) => some (.error e)
        | some (.ok (us, ps)) => some (.ok (u :: us, pageCrates r ++ ps))

/-- The comparator of line 55, `(a, b) => b.downloads - a.downloads`, as the
order it induces: `a` may come no later than `b` iff the comparator is ≤ 0,
i.e. iff `b.downloads ≤ a.downloads`.  There is no secondary key. -/
def cargoRel (a b : CargoPackage) : Prop := b.downloads ≤ a.downloads

instance : DecidableRel cargoRel := fun a b =>
  inferInstanceAs (Decidable (b.downloads ≤ a.downloads))

instance : IsTotal CargoPackage cargoRel := ⟨fun a b => Nat.le_total b.downloads a.downloads⟩

instance : IsTrans CargoPackage cargoRel := ⟨fun _ _ _ h1 h2 => Nat.le_trans h2 h1⟩

/-- `packages.sort(...)` (line 55).  `Array.prototype.sort` is stable
(ECMAScript 2019), and for a consistent comparator the stable sorted order is
unique; `List.insertionSort` is a stable sort and therefore computes exactly
the array the JavaScript engine produces. -/
def cargoSort (l : List CargoPackage) : List CargoPackage := List.insertionSort cargoRel l

/-- The cache key of line 23. -/
def cargoKey (userId : String) : String := "cargo:packages:" ++ userId

/-- The cache-miss tail of the handler (lines 34–65): run the pagination loop,
sort, write back when nonempty (fire-and-forget, failures swallowed), respond
with the fresh list and a `miss` header. -/
def cargoMiss (stringify : List CargoPackage → String) (σ : Store) (userId : String)
    (fetchU : String → Except Unit CargoResponse) (fuel : Nat) (writeFail : Bool) :
    Option (HandlerOut (List CargoPackage)) :=
  match cargoFetchLoop fetchU (cargoInitUrl userId) fuel with
  | none => none
  | some (.error e) => some { result := .error e, cacheHeader := none, store := σ }
  | some (.ok (_, pkgs)) =>
    let sorted := cargoSort pkgs
    let σ' :=
      if sorted.isEmpty then σ
      else if writeFail then σ
      else storeSet σ (cargoKey userId) (stringify sorted)
    some { result := .ok (.inr sorted), cacheHeader := some "miss", store := σ' }

/-- The crates.io packages route handler.  Lines 25–32: read the cache key
(read rejections are swallowed by `.catch(() => undefined)`, modelled by
`readFail`); a truthy cached value is returned verbatim with a `hit` header;
otherwise fall through to the miss path. -/
def cargoPackagesGet (stringify : List CargoPackage → String) (σ : Store) (readFail : Bool)
    (userId : String) (fetchU : String → Except Unit CargoResponse) (fuel : Nat)
    (writeFail : Bool) : Option (HandlerOut (List CargoPackage)) :=
  let cached : Option String := if readFail then none else σ (cargoKey userId)
  match cached with
  | some v =>
    if v = "" then cargoMiss stringify σ userId fetchU fuel writeFail
    else some { result := .ok (.inl v), cacheHeader := some "hit", store := σ }
  | none => cargoMiss stringify σ userId fetchU fuel writeFail

/-- Spec-side characterization of a correct paginated pull (spec section 4.2):
the first request goes to the given URL, each later request is issued at
exactly the continuation URL returned by the previous page, the run stops
exactly when the response reports no further page (a null — or, by
truthiness, empty — `next_page`), and the packages are all pages' crates in
order. -/
inductive CargoChain (fetchU : String → Except Unit CargoResponse) :
    String → List String → List CargoPackage → Prop
  | last (u : String) (r : CargoResponse) :
      fetchU u = .ok r → r.next_page = none →
      CargoChain fetchU u [u] (pageCrates r)
  | stop (u : String) (r : CargoResponse) :
      fetchU u = .ok r → r.next_page = some "" →
      CargoChain fetchU u [u] (pageCrates r)
  | step (u v : String) (r : CargoResponse) (us : List String) (ps : List CargoPackage) :
      fetchU u = .ok r → r.next_page = some v → v ≠ "" →
      CargoChain fetchU v us ps →
      CargoChain fetchU u (u :: us) (pageCrates r ++ ps)

/-! ## GitHub contributions endpoint (`src/server/api/github/contributions/index.get.ts`) -/

/-- One entry of `languages.nodes` in the GraphQL response. -/
structure LangNode where
  color : String
  name : String
deriving DecidableEq, Repr

/-- A repository node of the `repositoriesContributedTo` response, with the
`languages.nodes` wrapper flattened into the `languages` field.  The
normalized records pushed into `projects` (lines 109–114) have the same shape
— the spread `{...repo, name, languages, stargazerCount}` only overrides
`name` (with the lowercased key), while `languages` and `stargazerCount` are
rewritten to themselves since the response type declares them non-null. -/
structure Repo where
  name : String
  nameWithOwner : String
  description : String
  homepageUrl : String
  url : String
  stargazerCount : Nat
  languages : List LangNode
deriving DecidableEq, Repr

/-- A normalized project record is a repository node with the derived name. -/
abbrev Project := Repo

/-- Line 106: `(repo?.nameWithOwner || repo?.name)?.toLowerCase()` — `||`
falls through on the empty string. -/
def deriveKey (repo : Repo) : String :=
  lowerStr (if repo.nameWithOwner = "" then repo.name else repo.nameWithOwner)

/-- Lines 105–118: process one repository node against the accumulator
`(projects, seenProjects)` — push the normalized record and remember its key
unless the key is empty or already seen. -/
def githubStep : List Project × List String → Repo → List Project × List String
  | (projects, seen), repo =>
    let name := deriveKey repo
    if name ≠ "" ∧ name ∉ seen then
      (projects ++ [{ repo with name := name }], seen ++ [name])
    else (projects, seen)

/-- The accumulation of lines 104–119 over one page's node list. -/
def githubProcessPage (repos : List Repo) (acc : List Project × List String) :
    List Project × List String :=
  repos.foldl githubStep acc

/-- The merged accumulation over a sequence of pages, starting from the empty
accumulator of lines 49 and 53. -/
def githubAccumPages (pages : List (List Repo)) : List Project :=
  ((pages.flatMap id).foldl githubStep ([], [])).1

/-- The GraphQL POST request of lines 56–100.  Note that the body is built
from `config.githubUsername` alone: the `cursor` variable of the loop is
never interpolated into the query (there is no `after:` argument). -/
structure GithubRequest where
  url : String
  query : String
deriving DecidableEq, Repr

/-- The query template literal of lines 66–97 (braces written as escapes). -/
def githubContribQuery (username : String) : String :=
  "\x7b\n                user(login: \"" ++ username ++ "\") \x7b\n" ++
  "                  repositoriesContributedTo(\n" ++
  "                    privacy: PUBLIC\n" ++
  "                    first: 100\n" ++
  "                    orderBy: \x7bfield: STARGAZERS, direction: DESC\x7d\n" ++
  "                    contributionTypes: [COMMIT]\n" ++
  "                    includeUserRepositories: false\n" ++
  "                  ) \x7b\n" ++
  "                    nodes \x7b\n" ++
  "                      ... on Repository \x7b\n" ++
  "                        name\n" ++
  "                        nameWithOwner\n" ++
  "                        description\n" ++
  "                        homepageUrl\n" ++
  "                        stargazerCount\n" ++
  "                        url\n" ++
  "                        languages(first: 3, orderBy: \x7bfield: SIZE, direction: DESC\x7d) \x7b\n" ++
  "                          nodes \x7b\n" ++
  "                            color\n" ++
  "                            name\n" ++
  "                          \x7d\n" ++
  "                        \x7d\n" ++
  "                      \x7d\n" ++
  "                    \x7d\n" ++
  "                    pageInfo \x7b\n" ++
  "                      endCursor\n" ++
  "                      hasNextPage\n" ++
  "                    \x7d\n" ++
  "                  \x7d\n" ++
  "                \x7d\n" ++
  "              \x7d"

/-- The request issued by every iteration of the `do…while` loop: URL and
query depend only on the username — the loop's `cursor` does not occur. -/
def githubContribRequest (username : String) : GithubRequest :=
  { url := "https://api.github.com/graphql", query := githubContribQuery username }

/-- The part of the GraphQL response the handler reads:
`data.user.repositoriesContributedTo` with its `nodes` (checked with
`Array.isArray`) and `pageInfo`. -/
structure GithubPage where
  nodes : Option (List Repo)
  hasNextPage : Bool
  endCursor : Option String

/-- The `do { … } while (cursor)` loop of lines 51–130: fetch (always at least
once), process the page's nodes into the accumulator, `break` when
`pageInfo.hasNextPage` is falsy, set `cursor = endCursor || null` and continue
while the cursor is truthy.  The request passed to every fetch is the constant
`githubContribRequest username`. -/
def githubLoop (fetchG : GithubRequest → Except Unit GithubPage) (username : String) :
    List Project → List String → Nat → Option (Except Unit (List Project))
  | _, _, 0 => none
  | projects, seen, fuel + 1 =>
    match fetchG (githubContribRequest username) with
    | .error e => some (.error e)
    | .ok page =>
      let acc := githubProcessPage (page.nodes.getD []) (projects, seen)
      if page.hasNextPage = false then some (.ok acc.1)
      else
        match page.endCursor with
        | none => some (.ok acc.1)
        | some c =>
          if c = "" then some (.ok acc.1)
          else githubLoop fetchG username acc.1 acc.2 fuel

/-- The comparator of lines 133–139 as the order it induces (`a` no later than
`b` iff the comparator value is ≤ 0): with equal star counts it defers to
`localeCompare` on the lowercased names, otherwise to
`(b.stargazerCount ?? 0) - (a.stargazerCount ?? 0)`. -/
def githubRel (a b : Project) : Prop :=
  (a.stargazerCount = b.stargazerCount ∧ lexLe (lowerStr a.name).data (lowerStr b.name).data = true)
  ∨ (a.stargazerCount ≠ b.stargazerCount ∧ b.stargazerCount ≤ a.stargazerCount)

instance : DecidableRel githubRel := fun a b =>
  inferInstanceAs (Decidable
    ((a.stargazerCount = b.stargazerCount
        ∧ lexLe (lowerStr a.name).data (lowerStr b.name).data = true)
      ∨ (a.stargazerCount ≠ b.stargazerCount ∧ b.stargazerCount ≤ a.stargazerCount)))

/-- `projects.sort(...)` (lines 133–139); as for the cargo sort, the stable
insertion sort computes the ECMAScript stable-sort result. -/
def githubSort (l : List Project) : List Project := List.insertionSort githubRel l

/-- The cache key of line 38. -/
def githubContribKey (username : String) : String := "github:contributions:" ++ username

/-- The cache-miss tail of the handler (lines 49–149): run the loop, sort,
write back when nonempty (failures swallowed), respond fresh with a `miss`
header. -/
def githubContribMiss (stringify : List Project → String) (σ : Store) (username : String)
    (fetchG : GithubRequest → Except Unit GithubPage) (fuel : Nat) (writeFail : Bool) :
    Option (HandlerOut (List Project)) :=
  match githubLoop fetchG username [] [] fuel with
  | none => none
  | some (.error e) => some { result := .error e, cacheHeader := none, store := σ }
  | some (.ok projects) =>
    let sorted := githubSort projects
    let σ' :=
      if sorted.isEmpty then σ
      else if writeFail then σ
      else storeSet σ (githubContribKey username) (stringify sorted)
    some { result := .ok (.inr sorted), cacheHeader := some "miss", store := σ' }

/-- The GitHub contributions route handler (lines 29–154); the hit path
(lines 40–47) mirrors the cargo one. -/
def githubContributionsGet (stringify : List Project → String) (σ : Store) (readFail : Bool)
    (username : String) (fetchG : GithubRequest → Except Unit GithubPage) (fuel : Nat)
    (writeFail : Bool) : Option (HandlerOut (List Project)) :=
  let cached : Option String := if readFail then none else σ (githubContribKey username)
  match cached with
  | some v =>
    if v = "" then githubContribMiss stringify σ username fetchG fuel writeFail
    else some { result := .ok (.inl v), cacheHeader := some "hit", store := σ }
  | none => githubContribMiss stringify σ username fetchG fuel writeFail

/-! ## GitHub starred endpoint (second handler in
`src/server/api/github/contributions/index.get.ts`, lines 155–273) -/

/-- A node of the `starredRepositories` response; several fields are declared
nullable there. -/
structure StarredRepo where
  name : String
  nameWithOwner : String
  description : Option String
  homepageUrl : Option String
  url : Option String
  stargazerCount : Nat
  isFork : Bool
  languages : List LangNode
deriving DecidableEq, Repr

/-- The normalized starred record produced by the `.map` of lines 248–258. -/
structure StarredProject where
  name : String
  nameWithOwner : String
  description : String
  homepageUrl : String
  url : String
  stargazerCount : Nat
  isFork : Bool
  languages : List LangNode
deriving DecidableEq, Repr

/-- Lines 250–258: `{...p, name: p?.nameWithOwner || p?.name, languages:
p?.languages?.nodes ?? [], description: p?.description ?? '', …}`.  Note that
unlike the contributions handler the name is not lowercased. -/
def starredNormalize (p : StarredRepo) : StarredProject :=
  { name := if p.nameWithOwner = "" then p.name else p.nameWithOwner
    nameWithOwner := p.nameWithOwner
    description := p.description.getD ""
    homepageUrl := p.homepageUrl.getD ""
    url := p.url.getD ""
    stargazerCount := p.stargazerCount
    isFork := p.isFork
    languages := p.languages }

/-- The starred route handler (lines 182–273): one un-paginated fetch whose
`nodes ?? []` (line 248–249) is the `Option (List StarredRepo)` outcome, then
the normalization map, the `if (projects.length)` write guard of lines
260–264, and the same hit path as the other handlers (lines 193–200). -/
def githubStarredGet (stringify : List StarredProject → String) (σ : Store) (readFail : Bool)
    (fetchS : Except Unit (Option (List StarredRepo))) (writeFail : Bool) :
    HandlerOut (List StarredProject) :=
  let cached : Option String := if readFail then none else σ "github:starred"
  let miss : HandlerOut (List StarredProject) :=
    match fetchS with
    | .error e => { result := .error e, cacheHeader := none, store := σ }
    | .ok nodesOpt =>
      let projects := (nodesOpt.getD []).map starredNormalize
      let σ' :=
        if projects.isEmpty then σ
        else if writeFail then σ
        else storeSet σ "github:starred" (stringify projects)
      { result := .ok (.inr projects), cacheHeader := some "miss", store := σ' }
  match cached with
  | some v =>
    if v = "" then miss
    else { result := .ok (.inl v), cacheHeader := some "hit", store := σ }
  | none => miss

/-! ## Cache invalidation endpoint (`src/server/api/cache/invalidate.get.ts`) -/

/-- The per-service key lists of the `cacheKeys` object literal
(lines 15–25), as functions of the configured usernames. -/
def cacheKeysGithub (gh : String) : List String :=
  ["github:starred", "github:repositories", "github:contributions:" ++ gh]

/-- `strava` entry of `cacheKeys`. -/
def cacheKeysStrava : List String := ["strava:activities"]

/-- `wakatime` entry of `cacheKeys`. -/
def cacheKeysWakatime : List String := ["wakatime:stats"]

/-- `npm` entry of `cacheKeys`. -/
def cacheKeysNpm (npm : String) : List String := ["npm:packages:" ++ npm]

/-- `leetcode` entry of `cacheKeys`. -/
def cacheKeysLeetcode (lc : String) : List String := ["leetcode:stats:" ++ lc]

/-- The own property names of the `cacheKeys` object literal, in insertion
order (= `Object.keys(cacheKeys)`). -/
def serviceNames : List String := ["github", "strava", "wakatime", "npm", "leetcode"]

/-- Lookup of `cacheKeys[target]` for an own property name. -/
def serviceKeys (gh npm lc : String) (t : String) : List String :=
  if t = "github" then cacheKeysGithub gh
  else if t = "strava" then cacheKeysStrava
  else if t = "wakatime" then cacheKeysWakatime
  else if t = "npm" then cacheKeysNpm npm
  else if t = "leetcode" then cacheKeysLeetcode lc
  else []

/-- `Object.values(cacheKeys).flat()` (line 34), in the literal's insertion
order. -/
def allCacheKeys (gh npm lc : String) : List String :=
  cacheKeysGithub gh ++ cacheKeysStrava ++ cacheKeysWakatime
    ++ cacheKeysNpm npm ++ cacheKeysLeetcode lc

/-- Property names every object literal inherits from `Object.prototype`: the
JavaScript `in` operator of line 29 (`target in cacheKeys`) also answers
`true` for each of these, and `cacheKeys[target]` then yields the inherited
function or object rather than a key array. -/
def objectPrototypeNames : List String :=
  ["constructor", "hasOwnProperty", "isPrototypeOf", "propertyIsEnumerable",
   "toLocaleString", "toString", "valueOf",
   "__defineGetter__", "__defineSetter__", "__lookupGetter__", "__lookupSetter__",
   "__proto__"]

/-- Response of the invalidation endpoint.  `ok` is the
`{ success: true, message, deleted, failed, keys }` object of lines 50–56;
`invalidTarget` the `{ error, available }` object of lines 36–39; `thrown` a
request that fails with an uncaught runtime `TypeError`. -/
inductive InvalidateResult where
  | ok (message : String) (deleted failed : Nat) (keys : List String)
  | invalidTarget (error : String) (available : List String)
  | thrown
deriving DecidableEq, Repr

/-- The error message literal of line 37. -/
def invalidErrMsg : String :=
  "Invalid target. Use: github, strava, wakatime, npm, leetcode, or all"

/-- The success message of line 52 for a target `t`. -/
def invalidateMsg (t : String) : String := "Cache invalidation completed for: " ++ t

/-- The `{ success: true, … }` response for an attempted key list, given
which `del` promises fulfil (`delOk`): `deleted`/`failed` are the fulfilled
and rejected counts of `Promise.allSettled` (lines 43–48). -/
def invalidateRun (delOk : String → Bool) (keys : List String) (t : String) :
    InvalidateResult :=
  .ok (invalidateMsg t) (keys.filter (fun k => delOk k)).length
    (keys.filter (fun k => !delOk k)).length keys

/-- The invalidation route handler.  Returns the response together with the
list of keys on which `del` was actually invoked.  Branching follows lines
29–45: `if (target && target in cacheKeys)` — where `in` also sees the
inherited `Object.prototype` names, for which `keysToDelete` becomes a
non-array and `keysToDelete.map` at line 44 throws before any `del` call —
then `else if (target === 'all')`, else the error return (which deletes
nothing). -/
def cacheInvalidateGet (gh npm lc : String) (delOk : String → Bool)
    (target : Option String) : InvalidateResult × List String :=
  let available := serviceNames ++ ["all"]
  match target with
  | none => (.invalidTarget invalidErrMsg available, [])
  | some t =>
    if t ≠ "" ∧ (t ∈ serviceNames ∨ t ∈ objectPrototypeNames) then
      if t ∈ serviceNames then
        let keys := serviceKeys gh npm lc t
        (invalidateRun delOk keys t, keys)
      else (.thrown, [])
    else if t = "all" then
      let keys := allCacheKeys gh npm lc
      (invalidateRun delOk keys t, keys)
    else (.invalidTarget invalidErrMsg available, [])

/-! ## Strava token refresh (`src/server/api/strava/auth/refresh/index.post.ts`
and the variant handler at the start of `src/unnamed/part_000`) -/

/-- The token pair returned by the Strava OAuth token endpoint. -/
structure TokenPair where
  access_token : String
  refresh_token : String
deriving DecidableEq, Repr

/-- Response of a refresh handler: `ok` is `{ access_token }`, `errResponse`
one of the early `{ access_token: null, error }` returns, `thrown` a rejected
request. -/
inductive RefreshOut where
  | ok (access_token : String)
  | errResponse (error : String)
  | thrown
deriving DecidableEq, Repr

/-- The primary refresh handler (`index.post.ts`).  The store read has a
`.catch` returning `undefined` (line 20–25, modelled by `readFail`); an empty
or absent token falls back to `config.stravaRefreshToken` when that is truthy
(lines 27–30); the OAuth exchange's `.catch` rethrows, so a failed exchange
rejects the request; the `mset` write-back has a `.catch` that only logs
(lines 57–64, modelled by `msetFail` leaving the store unchanged), after which
`{ access_token }` is returned regardless. -/
def stravaRefreshPost (clientId clientSecret envRefreshToken : String) (σ : Store)
    (readFail : Bool) (exchange : String → Except Unit TokenPair) (msetFail : Bool) :
    RefreshOut × Store :=
  if clientId = "" ∨ clientSecret = "" then (.errResponse "Strava not configured", σ)
  else
    let fromStore : Option String := if readFail then none else σ "strava:refresh_token"
    let tok0 : Option String :=
      match fromStore with
      | some v => if v = "" then none else some v
      | none => none
    let tok1 : Option String :=
      match tok0 with
      | some v => some v
      | none => if envRefreshToken = "" then none else some envRefreshToken
    match tok1 with
    | none => (.errResponse "Refresh token not found", σ)
    | some rt =>
      match exchange rt with
      | .error _ => (.thrown, σ)
      | .ok pair =>
        let σ' :=
          if msetFail then σ
          else storeSet (storeSet σ "strava:access_token" pair.access_token)
            "strava:refresh_token" pair.refresh_token
        (.ok pair.access_token, σ')

/-- The variant refresh handler (first handler of `src/unnamed/part_000`).
Differences from the primary: the store read is awaited without `.catch`, so a
read failure rejects the request; there is no environment fallback token; and
the `mset` write-back is awaited without `.catch`, so a persist failure also
rejects the request instead of returning the new token. -/
def stravaRefreshVariantPost (clientId clientSecret : String) (σ : Store)
    (readFail : Bool) (exchange : String → Except Unit TokenPair) (msetFail : Bool) :
    RefreshOut × Store :=
  if clientId = "" ∨ clientSecret = "" then (.errResponse "Strava not configured", σ)
  else if readFail then (.thrown, σ)
  else
    match σ "strava:refresh_token" with
    | none => (.errResponse "Refresh token not found", σ)
    | some v =>
      if v = "" then (.errResponse "Refresh token not found", σ)
      else
        match exchange v with
        | .error _ => (.thrown, σ)
        | .ok pair =>
          if msetFail then (.thrown, σ)
          else (.ok pair.access_token,
            storeSet (storeSet σ "strava:access_token" pair.access_token)
              "strava:refresh_token" pair.refresh_token)

/-- The response as seen by a caller of a data endpoint: body and cache
header, without the store (which the caller cannot observe). -/
def respView {α : Type} (o : Option (HandlerOut α)) :
    Option (Except Unit (Sum String α) × Option String) :=
  o.map (fun h => (h.result, h.cacheHeader))

/-! ## Helper lemmas -/

/-- Lists that disagree at a common position stay different under any
suffixes. -/
theorem divergesB_append_ne : ∀ (l1 l2 r1 r2 : List Char),
    divergesB l1 l2 = true → l1 ++ r1 ≠ l2 ++ r2 := by
  intro l1
  induction l1 with
  | nil => intro l2 r1 r2 h; simp [divergesB] at h
  | cons a as ih =>
    intro l2 r1 r2 h heq
    cases l2 with
    | nil => simp [divergesB] at h
    | cons b bs =>
      simp only [List.cons_append, List.cons.injEq] at heq
      by_cases hab : a = b
      · rw [divergesB, if_pos hab] at h
        exact ih bs r1 r2 h heq.2
      · exact hab heq.1

/-- Strings whose character lists disagree at a common position stay
different under arbitrary appended suffixes. -/
theorem strne (p q s t : String) (h : divergesB p.data q.data = true) :
    p ++ s ≠ q ++ t := by
  intro heq
  have h2 : (p ++ s).data = (q ++ t).data := by rw [heq]
  rw [String.data_append, String.data_append] at h2
  exact divergesB_append_ne p.data q.data s.data t.data h h2

/-- Variant of `strne` whose right-hand side has no appended suffix. -/
theorem strneR (p q s : String) (h : divergesB p.data q.data = true) : p ++ s ≠ q := by
  have := strne p q s "" h
  rwa [String.append_empty] at this

/-- Variant of `strne` whose left-hand side has no appended suffix. -/
theorem strneL (p q t : String) (h : divergesB p.data q.data = true) : p ≠ q ++ t := by
  have := strne p q "" t h
  rwa [String.append_empty] at this

/-- Splitting a list by a Boolean predicate partitions its length. -/
theorem length_filter_partition {α : Type} (p : α → Bool) :
    ∀ l : List α, (l.filter p).length + (l.filter (fun a => !p a)).length = l.length := by
  intro l
  induction l with
  | nil => rfl
  | cons a l ih =>
    by_cases h : p a
    · simp [List.filter_cons, h]
      omega
    · simp [List.filter_cons, h]
      omega

/-- `lexLe` is total. -/
theorem lexLe_total : ∀ as bs : List Char, lexLe as bs = true ∨ lexLe bs as = true := by
  intro as
  induction as with
  | nil => intro bs; left; rfl
  | cons a as ih =>
    intro bs
    cases bs with
    | nil => right; rfl
    | cons b bs =>
      by_cases hab : a = b
      · subst hab
        simpa [lexLe] using ih bs
      · rcases lt_or_gt_of_ne hab with h | h
        · left; simp [lexLe, hab, h]
        · right; simp [lexLe, Ne.symm hab, h]

/-- `lexLe` is transitive. -/
theorem lexLe_trans : ∀ as bs cs : List Char,
    lexLe as bs = true → lexLe bs cs = true → lexLe as cs = true := by
  intro as
  induction as with
  | nil => intro bs cs _ _; rfl
  | cons a as ih =>
    intro bs cs h1 h2
    cases bs with
    | nil => simp [lexLe] at h1
    | cons b bs =>
      cases cs with
      | nil => simp [lexLe] at h2
      | cons c cs =>
        simp only [lexLe] at h1 h2 ⊢
        by_cases hab : a = b
        · subst hab
          rw [if_pos rfl] at h1
          by_cases hac : a = c
          · subst hac
            rw [if_pos rfl] at h2 ⊢
            exact ih bs cs h1 h2
          · rw [if_neg hac] at h2 ⊢
            exact h2
        · rw [if_neg hab] at h1
          by_cases hbc : b = c
          · subst hbc
            rw [if_neg hab]
            exact h1
          · rw [if_neg hbc] at h2
            have hlt := lt_trans (of_decide_eq_true h1) (of_decide_eq_true h2)
            rw [if_neg (ne_of_lt hlt)]
            exact decide_eq_true hlt

/-- `lexLe` is antisymmetric. -/
theorem lexLe_antisymm : ∀ as bs : List Char,
    lexLe as bs = true → lexLe bs as = true → as = bs := by
  intro as
  induction as with
  | nil =>
    intro bs _ h2
    cases bs with
    | nil => rfl
    | cons b bs => simp [lexLe] at h2
  | cons a as ih =>
    intro bs h1 h2
    cases bs with
    | nil => simp [lexLe] at h1
    | cons b bs =>
      by_cases hab : a = b
      · subst hab
        simp only [lexLe, if_pos rfl] at h1 h2
        rw [ih bs h1 h2]
      · simp only [lexLe, if_neg hab, if_neg (Ne.symm hab)] at h1 h2
        exact absurd (lt_trans (of_decide_eq_true h1) (of_decide_eq_true h2)) (lt_irrefl a)

/-- The order induced by the contributions comparator is total. -/
theorem githubRel_total (a b : Project) : githubRel a b ∨ githubRel b a := by
  by_cases he : a.stargazerCount = b.stargazerCount
  · rcases lexLe_total (lowerStr a.name).data (lowerStr b.name).data with h | h
    · exact Or.inl (Or.inl ⟨he, h⟩)
    · exact Or.inr (Or.inl ⟨he.symm, h⟩)
  · rcases Nat.le_total b.stargazerCount a.stargazerCount with h | h
    · exact Or.inl (Or.inr ⟨he, h⟩)
    · exact Or.inr (Or.inr ⟨fun hh => he hh.symm, h⟩)

/-- The order induced by the contributions comparator is transitive. -/
theorem githubRel_trans (a b c : Project) :
    githubRel a b → githubRel b c → githubRel a c := by
  rintro (⟨he1, hl1⟩ | ⟨hne1, hle1⟩) (⟨he2, hl2⟩ | ⟨hne2, hle2⟩)
  · exact Or.inl ⟨he1.trans he2, lexLe_trans _ _ _ hl1 hl2⟩
  · exact Or.inr ⟨fun h => hne2 (he1.symm.trans h), he1 ▸ hle2⟩
  · exact Or.inr ⟨fun h => hne1 (h.trans he2.symm), he2 ▸ hle1⟩
  · refine Or.inr ⟨fun h => ?_, Nat.le_trans hle2 hle1⟩
    exact hne1 (Nat.le_antisymm (h ▸ hle2) hle1)

/-! ## Claim C1 -/

/-- C1 as stated is false for the crates.io packages routine: its comparator
`(a, b) => b.downloads - a.downloads` has no secondary key, so two packages
with equal download counts keep their input order — here two different input
orders of the same two records give two different outputs, and in the first
output the tied records are not in ascending name order even though
"anyhow" sorts strictly before "serde". -/
theorem claim1_counterexample :
    cargoSort [⟨"serde", 50⟩, ⟨"anyhow", 50⟩] = [⟨"serde", 50⟩, ⟨"anyhow", 50⟩]
    ∧ cargoSort [⟨"anyhow", 50⟩, ⟨"serde", 50⟩] = [⟨"anyhow", 50⟩, ⟨"serde", 50⟩]
    ∧ (⟨"serde", 50⟩ : CargoPackage).downloads = (⟨"anyhow", 50⟩ : CargoPackage).downloads
    ∧ lexLe (lowerStr "anyhow").data (lowerStr "serde").data = true
    ∧ lexLe (lowerStr "serde").data (lowerStr "anyhow").data = false := by
  decide

/-- C1 (amended): the GitHub contributions routine sorts by star count
descending with ties broken by case-insensitive name ascending, while the
crates.io packages routine sorts by downloads descending only — packages with
equal download counts keep their input order and are not ordered by name. -/
theorem claim1_theorem :
    (∀ l : List Project,
      (githubSort l).Pairwise (fun a b =>
        b.stargazerCount ≤ a.stargazerCount
        ∧ (a.stargazerCount = b.stargazerCount →
            lexLe (lowerStr a.name).data (lowerStr b.name).data = true)))
    ∧ (∀ p : List CargoPackage, (cargoSort p).Pairwise cargoRel) := by
  constructor
  · intro l
    haveI : IsTotal Project githubRel := ⟨githubRel_total⟩
    haveI : IsTrans Project githubRel := ⟨fun a b c => githubRel_trans a b c⟩
    refine (List.sorted_insertionSort githubRel l).imp ?_
    rintro a b (⟨he, hl⟩ | ⟨hne, hle⟩)
    · exact ⟨Nat.le_of_eq he.symm, fun _ => hl⟩
    · exact ⟨hle, fun h => absurd h hne⟩
  · intro p
    exact List.sorted_insertionSort cargoRel p

/-! ## Claim C2 -/

/-- C2 fails on the GitHub contributions routine: the request body of every
iteration is `githubContribRequest username`, which does not contain the
loop's `cursor` (the query has no `after:` argument), so every iteration
repeats the identical request.  Consequently, whenever the (necessarily
identical) response reports `hasNextPage` with a truthy `endCursor`, the
`do…while` loop never terminates — it returns `none` for every amount of
fuel. -/
theorem claim2_theorem (fetchG : GithubRequest → Except Unit GithubPage) (username : String)
    (page : GithubPage) (c : String)
    (hf : fetchG (githubContribRequest username) = .ok page)
    (hn : page.hasNextPage = true) (hc : page.endCursor = some c) (hce : c ≠ "") :
    ∀ (projects : List Project) (seen : List String) (fuel : Nat),
      githubLoop fetchG username projects seen fuel = none := by
  intro projects seen fuel
  induction fuel generalizing projects seen with
  | zero => rfl
  | succ fuel ih =>
    rw [githubLoop, hf]
    simp only [hn, hc]
    rw [if_neg (by simp), if_neg hce]
    exact ih _ _

/-- C2 witness: a concrete upstream whose single page claims a next page with
cursor `"abc"`; the loop exhausts any fuel. -/
theorem claim2_witness :
    githubLoop (fun _ => .ok ⟨some [], true, some "abc"⟩) "octocat" [] [] 7 = none :=
  claim2_theorem (fun _ => .ok ⟨some [], true, some "abc"⟩) "octocat"
    ⟨some [], true, some "abc"⟩ "abc" rfl rfl rfl (by decide) [] [] 7

/-! ## Claim C3 -/

/-- Invariant of the `seenProjects` accumulation (lines 104–119): starting
from an accumulator whose seen-set is exactly the names of the collected
projects, the fold keeps that correspondence, preserves distinctness of the
collected names, and collects a key iff it was already collected or is the
(nonempty) derived key of some processed repository node. -/
theorem githubFold_spec : ∀ (repos : List Repo) (projects : List Project) (seen : List String),
    seen = projects.map Repo.name →
    ((repos.foldl githubStep (projects, seen)).2
        = (repos.foldl githubStep (projects, seen)).1.map Repo.name)
    ∧ ((projects.map Repo.name).Nodup →
        ((repos.foldl githubStep (projects, seen)).1.map Repo.name).Nodup)
    ∧ (∀ k, k ∈ (repos.foldl githubStep (projects, seen)).1.map Repo.name
        ↔ k ∈ projects.map Repo.name ∨ (k ≠ "" ∧ ∃ r ∈ repos, deriveKey r = k)) := by
  intro repos
  induction repos with
  | nil =>
    intro projects seen hseen
    simp only [List.foldl_nil]
    exact ⟨hseen, fun h => h, by simp⟩
  | cons r rs ih =>
    intro projects seen hseen
    simp only [List.foldl_cons]
    by_cases hcond : deriveKey r ≠ "" ∧ deriveKey r ∉ seen
    · have hstep : githubStep (projects, seen) r
          = (projects ++ [{ r with name := deriveKey r }], seen ++ [deriveKey r]) := by
        simp only [githubStep]
        rw [if_pos hcond]
      rw [hstep]
      have hmap : (projects ++ [{ r with name := deriveKey r }]).map Repo.name
          = projects.map Repo.name ++ [deriveKey r] := by simp
      have hseen' : seen ++ [deriveKey r]
          = (projects ++ [{ r with name := deriveKey r }]).map Repo.name := by
        rw [hmap, hseen]
      obtain ⟨h1, h2, h3⟩ := ih _ _ hseen'
      refine ⟨h1, ?_, ?_⟩
      · intro hnd
        apply h2
        rw [hmap]
        have hnotin : deriveKey r ∉ projects.map Repo.name := hseen ▸ hcond.2
        simp [List.nodup_append, hnd, hnotin]
      · intro k
        rw [h3 k, hmap]
        simp only [List.mem_append, List.mem_cons, List.not_mem_nil, or_false]
        constructor
        · rintro ((hk | rfl) | ⟨hne, x, hx, hdx⟩)
          · exact Or.inl hk
          · exact Or.inr ⟨hcond.1, r, Or.inl rfl, rfl⟩
          · exact Or.inr ⟨hne, x, Or.inr hx, hdx⟩
        · rintro (hk | ⟨hne, x, (rfl | hx), hdx⟩)
          · exact Or.inl (Or.inl hk)
          · exact Or.inl (Or.inr hdx.symm)
          · exact Or.inr ⟨hne, x, hx, hdx⟩
    · have hstep : githubStep (projects, seen) r = (projects, seen) := by
        simp only [githubStep]
        rw [if_neg hcond]
      rw [hstep]
      obtain ⟨h1, h2, h3⟩ := ih projects seen hseen
      refine ⟨h1, h2, fun k => ?_⟩
      rw [h3 k]
      simp only [List.mem_cons]
      constructor
      · rintro (hk | ⟨hne, x, hx, hdx⟩)
        · exact Or.inl hk
        · exact Or.inr ⟨hne, x, Or.inr hx, hdx⟩
      · rintro (hk | ⟨hne, x, (rfl | hx), hdx⟩)
        · exact Or.inl hk
        · rcases not_and_or.mp hcond with h0 | h0
          · exact absurd (hdx.symm.trans (not_not.mp h0)).symm (Ne.symm hne)
          · have hks : k ∈ seen := by
              rw [← hdx]
              exact not_not.mp h0
            rw [hseen] at hks
            exact Or.inl hks
        · exact Or.inr ⟨hne, x, hx, hdx⟩

/-- C3 (amended): the GitHub contributions accumulation de-duplicates by the
case-insensitively derived key across any sequence of pages — every key
occurs at most once among the merged records, and exactly once when some page
contains a node deriving it. -/
theorem claim3_theorem (pages : List (List Repo)) (k : String) :
    ((githubAccumPages pages).map Repo.name).count k ≤ 1
    ∧ ((k ≠ "" ∧ ∃ r ∈ pages.flatMap id, deriveKey r = k) →
        ((githubAccumPages pages).map Repo.name).count k = 1) := by
  obtain ⟨_, h2, h3⟩ := githubFold_spec (pages.flatMap id) [] [] rfl
  have hnd : ((githubAccumPages pages).map Repo.name).Nodup := h2 (by simp)
  constructor
  · exact List.nodup_iff_count_le_one.mp hnd k
  · rintro ⟨hne, hex⟩
    exact List.count_eq_one_of_mem hnd ((h3 k).mpr (Or.inr ⟨hne, hex⟩))

/-- C3 witness: the same repository (key `owner/repo`, in differing case) on
two different pages is merged into exactly one record. -/
theorem claim3_witness :
    (("owner/repo" : String) ≠ ""
      ∧ ∃ r ∈ ([[⟨"Repo", "Owner/Repo", "", "", "", 5, []⟩],
                 [⟨"Repo", "OWNER/REPO", "", "", "", 5, []⟩]] : List (List Repo)).flatMap id,
          deriveKey r = "owner/repo")
    ∧ ((githubAccumPages [[⟨"Repo", "Owner/Repo", "", "", "", 5, []⟩],
          [⟨"Repo", "OWNER/REPO", "", "", "", 5, []⟩]]).map Repo.name).count "owner/repo" = 1 :=
  ⟨by decide,
    ( claim3_theorem [[⟨"Repo", "Owner/Repo", "", "", "", 5, []⟩],
      [⟨"Repo", "OWNER/REPO", "", "", "", 5, []⟩]] "owner/repo").2 (by decide)⟩

/-- C3 as stated is false for the crates.io packages routine: it accumulates
`response.crates` with no de-duplication, so the same crate appearing on two
pages appears twice in the merged (and sorted) result. -/
theorem claim3_counterexample :
    cargoFetchLoop
        (fun u => if u = "page2" then .ok ⟨some [⟨"serde", 10⟩], none⟩
          else .ok ⟨some [⟨"serde", 10⟩], some "page2"⟩)
        (cargoInitUrl "42") 5
      = some (.ok
          (["https://crates.io/api/v1/crates?page=1&per_page=10&sort=alpha&user_id=42",
            "page2"],
           [⟨"serde", 10⟩, ⟨"serde", 10⟩]))
    ∧ ((cargoSort [⟨"serde", 10⟩, ⟨"serde", 10⟩]).map CargoPackage.name).count "serde" = 2 := by
  decide

/-! ## Claim C4 -/

/-- C4: on each modelled data endpoint (crates.io packages, GitHub
contributions, GitHub starred), after a miss whose fetched (normalized,
sorted) list is nonempty, the handler stores exactly the serialized response
under the endpoint's cache key, and any subsequent request in that store
state answers from the cache with exactly the stored string, verbatim —
regardless of the later request's upstream or write-failure behaviour. -/
theorem claim4_theorem :
    (∀ (stringify : List CargoPackage → String) (σ : Store) (userId : String)
        (fetchU : String → Except Unit CargoResponse) (fuel : Nat) (us : List String)
        (pkgs : List CargoPackage),
      σ (cargoKey userId) = none →
      cargoFetchLoop fetchU (cargoInitUrl userId) fuel = some (.ok (us, pkgs)) →
      stringify (cargoSort pkgs) ≠ "" →
      (cargoPackagesGet stringify σ false userId fetchU fuel false
        = some { result := .ok (.inr (cargoSort pkgs)), cacheHeader := some "miss",
                 store := if (cargoSort pkgs).isEmpty then σ
                   else storeSet σ (cargoKey userId) (stringify (cargoSort pkgs)) })
      ∧ ((cargoSort pkgs).isEmpty = false →
          ∀ (fetchU2 : String → Except Unit CargoResponse) (fuel2 : Nat) (wf : Bool),
          cargoPackagesGet stringify
              (storeSet σ (cargoKey userId) (stringify (cargoSort pkgs)))
              false userId fetchU2 fuel2 wf
            = some { result := .ok (.inl (stringify (cargoSort pkgs))),
                     cacheHeader := some "hit",
                     store := storeSet σ (cargoKey userId) (stringify (cargoSort pkgs)) }))
    ∧ (∀ (stringify : List Project → String) (σ : Store) (username : String)
        (fetchG : GithubRequest → Except Unit GithubPage) (fuel : Nat)
        (projects : List Project),
      σ (githubContribKey username) = none →
      githubLoop fetchG username [] [] fuel = some (.ok projects) →
      stringify (githubSort projects) ≠ "" →
      (githubContributionsGet stringify σ false username fetchG fuel false
        = some { result := .ok (.inr (githubSort projects)), cacheHeader := some "miss",
                 store := if (githubSort projects).isEmpty then σ
                   else storeSet σ (githubContribKey username)
                     (stringify (githubSort projects)) })
      ∧ ((githubSort projects).isEmpty = false →
          ∀ (fetchG2 : GithubRequest → Except Unit GithubPage) (fuel2 : Nat) (wf : Bool),
          githubContributionsGet stringify
              (storeSet σ (githubContribKey username) (stringify (githubSort projects)))
              false username fetchG2 fuel2 wf
            = some { result := .ok (.inl (stringify (githubSort projects))),
                     cacheHeader := some "hit",
                     store := storeSet σ (githubContribKey username)
                       (stringify (githubSort projects)) }))
    ∧ (∀ (stringify : List StarredProject → String) (σ : Store)
        (nodesOpt : Option (List StarredRepo)),
      σ "github:starred" = none →
      stringify ((nodesOpt.getD []).map starredNormalize) ≠ "" →
      (githubStarredGet stringify σ false (.ok nodesOpt) false
        = { result := .ok (.inr ((nodesOpt.getD []).map starredNormalize)),
            cacheHeader := some "miss",
            store := if ((nodesOpt.getD []).map starredNormalize).isEmpty then σ
              else storeSet σ "github:starred"
                (stringify ((nodesOpt.getD []).map starredNormalize)) })
      ∧ (((nodesOpt.getD []).map starredNormalize).isEmpty = false →
          ∀ (fetchS2 : Except Unit (Option (List StarredRepo))) (wf : Bool),
          githubStarredGet stringify
              (storeSet σ "github:starred"
                (stringify ((nodesOpt.getD []).map starredNormalize)))
              false fetchS2 wf
            = { result := .ok (.inl (stringify ((nodesOpt.getD []).map starredNormalize))),
                cacheHeader := some "hit",
                store := storeSet σ "github:starred"
                  (stringify ((nodesOpt.getD []).map starredNormalize)) })) := by
  refine ⟨?_, ?_, ?_⟩
  · intro stringify σ userId fetchU fuel us pkgs hmiss hloop hs
    constructor
    · unfold cargoPackagesGet
      simp only [if_neg (by simp : ¬ (false = true))]
      rw [hmiss]
      unfold cargoMiss
      rw [hloop]
      by_cases he : (cargoSort pkgs).isEmpty
      · simp [he]
      · simp only [Bool.not_eq_true] at he
        simp [he]
    · intro hne fetchU2 fuel2 wf
      unfold cargoPackagesGet
      simp only [if_neg (by simp : ¬ (false = true))]
      have hget : storeSet σ (cargoKey userId) (stringify (cargoSort pkgs)) (cargoKey userId)
          = some (stringify (cargoSort pkgs)) := by
        unfold storeSet
        rw [if_pos rfl]
      rw [hget]
      simp only [if_neg hs]
  · intro stringify σ username fetchG fuel projects hmiss hloop hs
    constructor
    · unfold githubContributionsGet
      simp only [if_neg (by simp : ¬ (false = true))]
      rw [hmiss]
      unfold githubContribMiss
      rw [hloop]
      by_cases he : (githubSort projects).isEmpty
      · simp [he]
      · simp only [Bool.not_eq_true] at he
        simp [he]
    · intro hne fetchG2 fuel2 wf
      unfold githubContributionsGet
      simp only [if_neg (by simp : ¬ (false = true))]
      have hget : storeSet σ (githubContribKey username) (stringify (githubSort projects))
            (githubContribKey username)
          = some (stringify (githubSort projects)) := by
        unfold storeSet
        rw [if_pos rfl]
      rw [hget]
      simp only [if_neg hs]
  · intro stringify σ nodesOpt hmiss hs
    constructor
    · unfold githubStarredGet
      simp only [if_neg (by simp : ¬ (false = true))]
      rw [hmiss]
    · intro hne fetchS2 wf
      unfold githubStarredGet
      simp only [if_neg (by simp : ¬ (false = true))]
      have hget : storeSet σ "github:starred"
            (stringify ((nodesOpt.getD []).map starredNormalize)) "github:starred"
          = some (stringify ((nodesOpt.getD []).map starredNormalize)) := by
        unfold storeSet
        rw [if_pos rfl]
      rw [hget]
      simp only [if_neg hs]

/-- C4 witness: one nonempty fetch per endpoint; each miss stores the
serialized list under the endpoint's key, and the next request hits and
returns exactly that stored string. -/
theorem claim4_witness :
    (emptyStore (cargoKey "42") = none)
    ∧ (cargoFetchLoop (fun _ => .ok ⟨some [⟨"serde", 10⟩], none⟩) (cargoInitUrl "42") 3
        = some (.ok
            (["https://crates.io/api/v1/crates?page=1&per_page=10&sort=alpha&user_id=42"],
             [⟨"serde", 10⟩])))
    ∧ ((fun l => "[" ++ String.intercalate "," (l.map CargoPackage.name) ++ "]")
          (cargoSort [⟨"serde", 10⟩]) ≠ "")
    ∧ cargoPackagesGet (fun l => "[" ++ String.intercalate "," (l.map CargoPackage.name) ++ "]")
        (storeSet emptyStore (cargoKey "42")
          ((fun l => "[" ++ String.intercalate "," (l.map CargoPackage.name) ++ "]")
            (cargoSort [⟨"serde", 10⟩])))
        false "42" (fun _ => .error ()) 0 true
      = some { result := .ok (.inl
                ((fun l => "[" ++ String.intercalate "," (l.map CargoPackage.name) ++ "]")
                  (cargoSort [⟨"serde", 10⟩]))),
               cacheHeader := some "hit",
               store := storeSet emptyStore (cargoKey "42")
                ((fun l => "[" ++ String.intercalate "," (l.map CargoPackage.name) ++ "]")
                  (cargoSort [⟨"serde", 10⟩])) }
    ∧ (emptyStore (githubContribKey "octocat") = none)
    ∧ (githubLoop (fun _ => .ok ⟨some [⟨"Repo", "Owner/Repo", "", "", "", 5, []⟩], false, none⟩)
          "octocat" [] [] 3
        = some (.ok [⟨"owner/repo", "Owner/Repo", "", "", "", 5, []⟩]))
    ∧ githubContributionsGet (fun _ => "[json]")
        (storeSet emptyStore (githubContribKey "octocat")
          ((fun _ => "[json]" : List Project → String)
            (githubSort [⟨"owner/repo", "Owner/Repo", "", "", "", 5, []⟩])))
        false "octocat" (fun _ => .error ()) 0 true
      = some { result := .ok (.inl
                ((fun _ => "[json]" : List Project → String)
                  (githubSort [⟨"owner/repo", "Owner/Repo", "", "", "", 5, []⟩]))),
               cacheHeader := some "hit",
               store := storeSet emptyStore (githubContribKey "octocat")
                ((fun _ => "[json]" : List Project → String)
                  (githubSort [⟨"owner/repo", "Owner/Repo", "", "", "", 5, []⟩])) }
    ∧ (emptyStore "github:starred" = none)
    ∧ githubStarredGet (fun _ => "[json]")
        (storeSet emptyStore "github:starred"
          ((fun _ => "[json]" : List StarredProject → String)
            (((some [⟨"r", "o/r", none, none, none, 3, false, []⟩]
                : Option (List StarredRepo)).getD []).map starredNormalize)))
        false (.error ()) true
      = { result := .ok (.inl
            ((fun _ => "[json]" : List StarredProject → String)
              (((some [⟨"r", "o/r", none, none, none, 3, false, []⟩]
                  : Option (List StarredRepo)).getD []).map starredNormalize))),
          cacheHeader := some "hit",
          store := storeSet emptyStore "github:starred"
            ((fun _ => "[json]" : List StarredProject → String)
              (((some [⟨"r", "o/r", none, none, none, 3, false, []⟩]
                  : Option (List StarredRepo)).getD []).map starredNormalize)) } :=
  ⟨rfl, by decide, by decide,
    (claim4_theorem.1 (fun l => "[" ++ String.intercalate "," (l.map CargoPackage.name) ++ "]")
        emptyStore "42" (fun _ => .ok ⟨some [⟨"serde", 10⟩], none⟩) 3
        ["https://crates.io/api/v1/crates?page=1&per_page=10&sort=alpha&user_id=42"]
        [⟨"serde", 10⟩] rfl (by decide) (by decide)).2
      (by decide) (fun _ => .error ()) 0 true,
    rfl, by decide,
    (claim4_theorem.2.1 (fun _ => "[json]") emptyStore "octocat"
        (fun _ => .ok ⟨some [⟨"Repo", "Owner/Repo", "", "", "", 5, []⟩], false, none⟩) 3
        [⟨"owner/repo", "Owner/Repo", "", "", "", 5, []⟩] rfl (by decide) (by decide)).2
      (by decide) (fun _ => .error ()) 0 true,
    rfl,
    (claim4_theorem.2.2 (fun _ => "[json]") emptyStore
        (some [⟨"r", "o/r", none, none, none, 3, false, []⟩]) rfl (by decide)).2
      (by decide) (.error ()) true⟩

/-! ## Claim C5 -/

/-- C5 as stated is false: the membership test of line 29 is the JavaScript
`in` operator, which also answers `true` for property names inherited from
`Object.prototype`.  For `target = "toString"` the branch is taken,
`keysToDelete` becomes the inherited function rather than a key array, and
`keysToDelete.map` throws an uncaught TypeError — no key is deleted, but the
response is not the structured error object. -/
theorem claim5_counterexample :
    cacheInvalidateGet "u1" "u2" "u3" (fun _ => true) (some "toString") = (.thrown, [])
    ∧ (InvalidateResult.thrown
        ≠ .invalidTarget invalidErrMsg (serviceNames ++ ["all"])) := by
  decide

/-- C5 (amended): for a target that is absent, or neither a valid target name
nor an `Object.prototype` property name, nothing is deleted and the response
is the structured error enumerating the valid targets; for an inherited
`Object.prototype` property name (e.g. `"toString"`) nothing is deleted
either, but the request throws instead of returning the error object. -/
theorem claim5_theorem (gh npm lc : String) (delOk : String → Bool) (t : String) :
    (t ∉ serviceNames → t ∉ objectPrototypeNames → t ≠ "all" →
      cacheInvalidateGet gh npm lc delOk (some t)
        = (.invalidTarget invalidErrMsg (serviceNames ++ ["all"]), []))
    ∧ (t ∈ objectPrototypeNames →
      cacheInvalidateGet gh npm lc delOk (some t) = (.thrown, []))
    ∧ cacheInvalidateGet gh npm lc delOk none
        = (.invalidTarget invalidErrMsg (serviceNames ++ ["all"]), []) := by
  refine ⟨?_, ?_, rfl⟩
  · intro h1 h2 h3
    unfold cacheInvalidateGet
    dsimp only
    rw [if_neg, if_neg h3]
    rintro ⟨-, h | h⟩
    · exact h1 h
    · exact h2 h
  · intro hp
    have hne : t ≠ "" ∧ t ∉ serviceNames := by
      simp only [objectPrototypeNames, List.mem_cons, List.not_mem_nil, or_false] at hp
      rcases hp with rfl | rfl | rfl | rfl | rfl | rfl | rfl | rfl | rfl | rfl | rfl | rfl <;>
        exact ⟨by decide, by decide⟩
    unfold cacheInvalidateGet
    dsimp only
    rw [if_pos ⟨hne.1, Or.inr hp⟩, if_neg hne.2]

/-- C5 witness: the unknown target `"foo"` and an absent target both delete
nothing and produce the enumerated error response. -/
theorem claim5_witness :
    (("foo" : String) ∉ serviceNames)
    ∧ (("foo" : String) ∉ objectPrototypeNames)
    ∧ (("foo" : String) ≠ "all")
    ∧ cacheInvalidateGet "u1" "u2" "u3" (fun _ => true) (some "foo")
        = (.invalidTarget invalidErrMsg (serviceNames ++ ["all"]), [])
    ∧ cacheInvalidateGet "u1" "u2" "u3" (fun _ => true) none
        = (.invalidTarget invalidErrMsg (serviceNames ++ ["all"]), []) :=
  ⟨by decide, by decide, by decide,
    ( claim5_theorem "u1" "u2" "u3" (fun _ => true) "foo").1 (by decide) (by decide) (by decide),
    ( claim5_theorem "u1" "u2" "u3" (fun _ => true) "foo").2.2⟩

/-! ## Claim C9 -/

/-- C9: invalidating `"all"` attempts deletion of exactly
`Object.values(cacheKeys).flat()` — the union of every per-service key list —
the attempted list has no duplicate key (for any configured usernames), the
response reports it literally, and the fulfilled/rejected counts partition
the attempted list, so no key is counted twice. -/
theorem claim9_theorem (gh npm lc : String) (delOk : String → Bool) :
    (cacheInvalidateGet gh npm lc delOk (some "all")).2 = allCacheKeys gh npm lc
    ∧ (∀ k, k ∈ allCacheKeys gh npm lc ↔
        k ∈ cacheKeysGithub gh ∨ k ∈ cacheKeysStrava ∨ k ∈ cacheKeysWakatime
          ∨ k ∈ cacheKeysNpm npm ∨ k ∈ cacheKeysLeetcode lc)
    ∧ (allCacheKeys gh npm lc).Nodup
    ∧ (cacheInvalidateGet gh npm lc delOk (some "all")).1
        = .ok (invalidateMsg "all")
            ((allCacheKeys gh npm lc).filter (fun k => delOk k)).length
            ((allCacheKeys gh npm lc).filter (fun k => !delOk k)).length
            (allCacheKeys gh npm lc)
    ∧ ((allCacheKeys gh npm lc).filter (fun k => delOk k)).length
        + ((allCacheKeys gh npm lc).filter (fun k => !delOk k)).length
        = (allCacheKeys gh npm lc).length := by
  have hbranch : cacheInvalidateGet gh npm lc delOk (some "all")
      = (invalidateRun delOk (allCacheKeys gh npm lc) "all", allCacheKeys gh npm lc) := by
    unfold cacheInvalidateGet
    dsimp only
    rw [if_neg (by decide), if_pos rfl]
  have hlist : allCacheKeys gh npm lc
      = ["github:starred", "github:repositories", "github:contributions:" ++ gh,
         "strava:activities", "wakatime:stats", "npm:packages:" ++ npm,
         "leetcode:stats:" ++ lc] := rfl
  refine ⟨by rw [hbranch], ?_, ?_, by rw [hbranch]; rfl, length_filter_partition _ _⟩
  · intro k
    simp [allCacheKeys, List.mem_append, or_assoc]
  · rw [hlist]
    simp only [List.nodup_cons, List.mem_cons, List.not_mem_nil, or_false, not_or,
      List.nodup_nil, and_true]
    refine ⟨⟨by decide, strneL "github:starred" "github:contributions:" gh (by decide),
        by decide, by decide, strneL "github:starred" "npm:packages:" npm (by decide),
        strneL "github:starred" "leetcode:stats:" lc (by decide)⟩,
      ⟨strneL "github:repositories" "github:contributions:" gh (by decide),
        by decide, by decide, strneL "github:repositories" "npm:packages:" npm (by decide),
        strneL "github:repositories" "leetcode:stats:" lc (by decide)⟩,
      ⟨strneR "github:contributions:" "strava:activities" gh (by decide),
        strneR "github:contributions:" "wakatime:stats" gh (by decide),
        strne "github:contributions:" "npm:packages:" gh npm (by decide),
        strne "github:contributions:" "leetcode:stats:" gh lc (by decide)⟩,
      ⟨by decide, strneL "strava:activities" "npm:packages:" npm (by decide),
        strneL "strava:activities" "leetcode:stats:" lc (by decide)⟩,
      ⟨strneL "wakatime:stats" "npm:packages:" npm (by decide),
        strneL "wakatime:stats" "leetcode:stats:" lc (by decide)⟩,
      ⟨strne "npm:packages:" "leetcode:stats:" npm lc (by decide), not_false⟩⟩

/-! ## Claims C6, C7, C10 -/

/-- The caller-visible response of the cargo miss path does not depend on the
outcome of the fire-and-forget cache write. -/
theorem cargoMiss_respView (stringify : List CargoPackage → String) (σ : Store)
    (userId : String) (fetchU : String → Except Unit CargoResponse) (fuel : Nat)
    (w1 w2 : Bool) :
    respView (cargoMiss stringify σ userId fetchU fuel w1)
      = respView (cargoMiss stringify σ userId fetchU fuel w2) := by
  unfold cargoMiss
  cases hl : cargoFetchLoop fetchU (cargoInitUrl userId) fuel with
  | none => rfl
  | some r =>
    cases r with
    | error e => rfl
    | ok p =>
      obtain ⟨us, ps⟩ := p
      rfl

/-- The caller-visible response of the contributions miss path does not
depend on the outcome of the fire-and-forget cache write. -/
theorem githubMiss_respView (stringify : List Project → String) (σ : Store)
    (username : String) (fetchG : GithubRequest → Except Unit GithubPage) (fuel : Nat)
    (w1 w2 : Bool) :
    respView (githubContribMiss stringify σ username fetchG fuel w1)
      = respView (githubContribMiss stringify σ username fetchG fuel w2) := by
  unfold githubContribMiss
  cases hl : githubLoop fetchG username [] [] fuel with
  | none => rfl
  | some r =>
    cases r with
    | error e => rfl
    | ok projects => rfl

/-- C6: on every modelled data endpoint, a store-read failure is swallowed
and the request proceeds as a miss, returning the freshly fetched value; and
a store-write failure never changes the caller-visible response.  No store
error reaches the caller. -/
theorem claim6_theorem :
    (∀ stringify σ userId fetchU fuel wf us pkgs,
      cargoFetchLoop fetchU (cargoInitUrl userId) fuel = some (.ok (us, pkgs)) →
      respView (cargoPackagesGet stringify σ true userId fetchU fuel wf)
        = some (.ok (.inr (cargoSort pkgs)), some "miss"))
    ∧ (∀ stringify σ rf userId fetchU fuel,
      respView (cargoPackagesGet stringify σ rf userId fetchU fuel true)
        = respView (cargoPackagesGet stringify σ rf userId fetchU fuel false))
    ∧ (∀ stringify σ username fetchG fuel wf projects,
      githubLoop fetchG username [] [] fuel = some (.ok projects) →
      respView (githubContributionsGet stringify σ true username fetchG fuel wf)
        = some (.ok (.inr (githubSort projects)), some "miss"))
    ∧ (∀ stringify σ rf username fetchG fuel,
      respView (githubContributionsGet stringify σ rf username fetchG fuel true)
        = respView (githubContributionsGet stringify σ rf username fetchG fuel false))
    ∧ (∀ stringify σ wf nodesOpt,
      (githubStarredGet stringify σ true (.ok nodesOpt) wf).result
          = .ok (.inr ((nodesOpt.getD []).map starredNormalize))
        ∧ (githubStarredGet stringify σ true (.ok nodesOpt) wf).cacheHeader = some "miss")
    ∧ (∀ stringify σ rf fetchS,
      (githubStarredGet stringify σ rf fetchS true).result
          = (githubStarredGet stringify σ rf fetchS false).result
        ∧ (githubStarredGet stringify σ rf fetchS true).cacheHeader
          = (githubStarredGet stringify σ rf fetchS false).cacheHeader) := by
  refine ⟨?_, ?_, ?_, ?_, ?_, ?_⟩
  · intro stringify σ userId fetchU fuel wf us pkgs hloop
    unfold cargoPackagesGet
    dsimp only
    unfold cargoMiss
    rw [hloop]
    by_cases he : (cargoSort pkgs).isEmpty <;> simp [respView, he]
  · intro stringify σ rf userId fetchU fuel
    unfold cargoPackagesGet
    cases rf with
    | true => exact cargoMiss_respView ..
    | false =>
      simp only [Bool.false_eq_true, if_false]
      cases hσ : σ (cargoKey userId) with
      | none => exact cargoMiss_respView ..
      | some v =>
        dsimp only
        by_cases hv : v = ""
        · rw [if_pos hv, if_pos hv]
          exact cargoMiss_respView ..
        · rw [if_neg hv, if_neg hv]
  · intro stringify σ username fetchG fuel wf projects hloop
    unfold githubContributionsGet
    dsimp only
    unfold githubContribMiss
    rw [hloop]
    by_cases he : (githubSort projects).isEmpty <;> simp [respView, he]
  · intro stringify σ rf username fetchG fuel
    unfold githubContributionsGet
    cases rf with
    | true => exact githubMiss_respView ..
    | false =>
      simp only [Bool.false_eq_true, if_false]
      cases hσ : σ (githubContribKey username) with
      | none => exact githubMiss_respView ..
      | some v =>
        dsimp only
        by_cases hv : v = ""
        · rw [if_pos hv, if_pos hv]
          exact githubMiss_respView ..
        · rw [if_neg hv, if_neg hv]
  · intro stringify σ wf nodesOpt
    unfold githubStarredGet
    by_cases he : ((nodesOpt.getD []).map starredNormalize).isEmpty <;> simp [he]
  · intro stringify σ rf fetchS
    unfold githubStarredGet
    cases rf with
    | true =>
      dsimp only
      cases fetchS with
      | error e => exact ⟨rfl, rfl⟩
      | ok nodesOpt =>
        by_cases he : ((nodesOpt.getD []).map starredNormalize).isEmpty <;> simp [he]
    | false =>
      simp only [Bool.false_eq_true, if_false]
      cases hσ : σ "github:starred" with
      | none =>
        cases fetchS with
        | error e => exact ⟨rfl, rfl⟩
        | ok nodesOpt =>
          by_cases he : ((nodesOpt.getD []).map starredNormalize).isEmpty <;> simp [he]
      | some v =>
        dsimp only
        by_cases hv : v = ""
        · rw [if_pos hv, if_pos hv]
          cases fetchS with
          | error e => exact ⟨rfl, rfl⟩
          | ok nodesOpt =>
            by_cases he : ((nodesOpt.getD []).map starredNormalize).isEmpty <;> simp [he]
        · rw [if_neg hv, if_neg hv]
          exact ⟨rfl, rfl⟩

/-- C6 witness: with a failing store read (and even a failing write), each
modelled endpoint still answers with the freshly fetched value. -/
theorem claim6_witness :
    (cargoFetchLoop (fun _ => .ok ⟨some [⟨"serde", 10⟩], none⟩) (cargoInitUrl "42") 3
      = some (.ok
          (["https://crates.io/api/v1/crates?page=1&per_page=10&sort=alpha&user_id=42"],
           [⟨"serde", 10⟩])))
    ∧ respView (cargoPackagesGet (fun _ => "[json]") emptyStore true "42"
          (fun _ => .ok ⟨some [⟨"serde", 10⟩], none⟩) 3 true)
        = some (.ok (.inr (cargoSort [⟨"serde", 10⟩])), some "miss")
    ∧ (githubLoop (fun _ => .ok ⟨some [⟨"Repo", "Owner/Repo", "", "", "", 5, []⟩], false, none⟩)
          "octocat" [] [] 3
        = some (.ok [⟨"owner/repo", "Owner/Repo", "", "", "", 5, []⟩]))
    ∧ respView (githubContributionsGet (fun _ => "[json]") emptyStore true "octocat"
          (fun _ => .ok ⟨some [⟨"Repo", "Owner/Repo", "", "", "", 5, []⟩], false, none⟩) 3 true)
        = some (.ok (.inr (githubSort [⟨"owner/repo", "Owner/Repo", "", "", "", 5, []⟩])),
            some "miss")
    ∧ (githubStarredGet (fun _ => "[json]") emptyStore true
          (.ok (some [⟨"r", "o/r", none, none, none, 3, false, []⟩])) true).result
        = .ok (.inr ((some [⟨"r", "o/r", none, none, none, 3, false,
            []⟩] : Option (List StarredRepo)).getD [] |>.map starredNormalize)) :=
  ⟨by decide,
    claim6_theorem.1 (fun _ => "[json]") emptyStore "42"
      (fun _ => .ok ⟨some [⟨"serde", 10⟩], none⟩) 3 true
      ["https://crates.io/api/v1/crates?page=1&per_page=10&sort=alpha&user_id=42"]
      [⟨"serde", 10⟩] (by decide),
    by decide,
    claim6_theorem.2.2.1 (fun _ => "[json]") emptyStore "octocat"
      (fun _ => .ok ⟨some [⟨"Repo", "Owner/Repo", "", "", "", 5, []⟩], false, none⟩) 3 true
      [⟨"owner/repo", "Owner/Repo", "", "", "", 5, []⟩] (by decide),
    (claim6_theorem.2.2.2.2.1 (fun _ => "[json]") emptyStore true
      (some [⟨"r", "o/r", none, none, none, 3, false, []⟩])).1⟩

/-- C7: on every modelled data endpoint, when the cache misses and the
upstream fetch rejects, the error propagates out of the handler unchanged (no
fallback, no `miss` header is ever set) and the store is left exactly as it
was — no write happens for that key or any other. -/
theorem claim7_theorem :
    (∀ stringify σ userId fetchU fuel (e : Unit) wf,
      σ (cargoKey userId) = none →
      cargoFetchLoop fetchU (cargoInitUrl userId) fuel = some (.error e) →
      cargoPackagesGet stringify σ false userId fetchU fuel wf
        = some { result := .error e, cacheHeader := none, store := σ })
    ∧ (∀ stringify σ username fetchG fuel (e : Unit) wf,
      σ (githubContribKey username) = none →
      githubLoop fetchG username [] [] fuel = some (.error e) →
      githubContributionsGet stringify σ false username fetchG fuel wf
        = some { result := .error e, cacheHeader := none, store := σ })
    ∧ (∀ stringify σ (e : Unit) wf,
      σ "github:starred" = none →
      githubStarredGet stringify σ false (.error e) wf
        = { result := .error e, cacheHeader := none, store := σ }) := by
  refine ⟨?_, ?_, ?_⟩
  · intro stringify σ userId fetchU fuel e wf hσ hloop
    unfold cargoPackagesGet
    simp only [Bool.false_eq_true, if_false]
    rw [hσ]
    unfold cargoMiss
    rw [hloop]
  · intro stringify σ username fetchG fuel e wf hσ hloop
    unfold githubContributionsGet
    simp only [Bool.false_eq_true, if_false]
    rw [hσ]
    unfold githubContribMiss
    rw [hloop]
  · intro stringify σ e wf hσ
    unfold githubStarredGet
    simp only [Bool.false_eq_true, if_false]
    rw [hσ]

/-- C7 witness: a rejecting upstream on a cold cache makes each endpoint fail
with that error while leaving the (empty) store untouched. -/
theorem claim7_witness :
    (emptyStore (cargoKey "42") = none)
    ∧ (cargoFetchLoop (fun _ => .error ()) (cargoInitUrl "42") 3 = some (.error ()))
    ∧ cargoPackagesGet (fun _ => "[json]") emptyStore false "42" (fun _ => .error ()) 3 true
        = some { result := .error (), cacheHeader := none, store := emptyStore }
    ∧ (githubLoop (fun _ => .error ()) "octocat" [] [] 3 = some (.error ()))
    ∧ githubContributionsGet (fun _ => "[json]") emptyStore false "octocat"
          (fun _ => .error ()) 3 true
        = some { result := .error (), cacheHeader := none, store := emptyStore }
    ∧ githubStarredGet (fun _ => "[json]") emptyStore false (.error ()) true
        = { result := .error (), cacheHeader := none, store := emptyStore } :=
  ⟨rfl, by decide, claim7_theorem.1 (fun _ => "[json]") emptyStore "42"
      (fun _ => .error ()) 3 () true rfl (by decide),
    by decide, claim7_theorem.2.1 (fun _ => "[json]") emptyStore "octocat"
      (fun _ => .error ()) 3 () true rfl (by decide),
    claim7_theorem.2.2 (fun _ => "[json]") emptyStore () true rfl⟩

/-- C10: on every modelled data endpoint, a cache miss whose fetch yields an
empty record list performs no store write at all (the store is returned
unchanged, so an empty list is never cached) and the endpoint responds with
the fresh empty list and a `miss` header. -/
theorem claim10_theorem :
    (∀ stringify σ userId fetchU fuel us wf,
      σ (cargoKey userId) = none →
      cargoFetchLoop fetchU (cargoInitUrl userId) fuel = some (.ok (us, [])) →
      cargoPackagesGet stringify σ false userId fetchU fuel wf
        = some { result := .ok (.inr []), cacheHeader := some "miss", store := σ })
    ∧ (∀ stringify σ username fetchG fuel wf,
      σ (githubContribKey username) = none →
      githubLoop fetchG username [] [] fuel = some (.ok []) →
      githubContributionsGet stringify σ false username fetchG fuel wf
        = some { result := .ok (.inr []), cacheHeader := some "miss", store := σ })
    ∧ (∀ stringify σ wf,
      σ "github:starred" = none →
      githubStarredGet stringify σ false (.ok (some [])) wf
        = { result := .ok (.inr []), cacheHeader := some "miss", store := σ }) := by
  refine ⟨?_, ?_, ?_⟩
  · intro stringify σ userId fetchU fuel us wf hσ hloop
    unfold cargoPackagesGet
    simp only [Bool.false_eq_true, if_false]
    rw [hσ]
    unfold cargoMiss
    rw [hloop]
    rfl
  · intro stringify σ username fetchG fuel wf hσ hloop
    unfold githubContributionsGet
    simp only [Bool.false_eq_true, if_false]
    rw [hσ]
    unfold githubContribMiss
    rw [hloop]
    rfl
  · intro stringify σ wf hσ
    unfold githubStarredGet
    simp only [Bool.false_eq_true, if_false]
    rw [hσ]
    rfl

/-- C10 witness: upstreams returning empty pages leave the store untouched
and yield empty responses on each endpoint. -/
theorem claim10_witness :
    (emptyStore (cargoKey "42") = none)
    ∧ (cargoFetchLoop (fun _ => .ok ⟨some [], none⟩) (cargoInitUrl "42") 3
        = some (.ok (["https://crates.io/api/v1/crates?page=1&per_page=10&sort=alpha&user_id=42"],
            [])))
    ∧ cargoPackagesGet (fun _ => "[json]") emptyStore false "42"
          (fun _ => .ok ⟨some [], none⟩) 3 false
        = some { result := .ok (.inr []), cacheHeader := some "miss", store := emptyStore }
    ∧ (githubLoop (fun _ => .ok ⟨some [], false, none⟩) "octocat" [] [] 3 = some (.ok []))
    ∧ githubContributionsGet (fun _ => "[json]") emptyStore false "octocat"
          (fun _ => .ok ⟨some [], false, none⟩) 3 false
        = some { result := .ok (.inr []), cacheHeader := some "miss", store := emptyStore }
    ∧ githubStarredGet (fun _ => "[json]") emptyStore false (.ok (some [])) false
        = { result := .ok (.inr []), cacheHeader := some "miss", store := emptyStore } :=
  ⟨rfl, by decide,
    claim10_theorem.1 (fun _ => "[json]") emptyStore "42" (fun _ => .ok ⟨some [], none⟩) 3
      ["https://crates.io/api/v1/crates?page=1&per_page=10&sort=alpha&user_id=42"] false
      rfl (by decide),
    by decide,
    claim10_theorem.2.1 (fun _ => "[json]") emptyStore "octocat"
      (fun _ => .ok ⟨some [], false, none⟩) 3 false rfl (by decide),
    claim10_theorem.2.2 (fun _ => "[json]") emptyStore false rfl⟩

/-! ## Claim C8 -/

/-- C8 as stated is false for the refresh handler variant in
`src/unnamed/part_000`: there the `mset` persisting the new token pair is
awaited without a `.catch`, so a persist failure rejects the whole request —
the new access token is not returned — whereas the same scenario without the
persist failure returns the token. -/
theorem claim8_counterexample :
    (stravaRefreshVariantPost "id" "sec"
        (storeSet emptyStore "strava:refresh_token" "rt0") false
        (fun _ => .ok ⟨"newAT", "newRT"⟩) true).1 = .thrown
    ∧ RefreshOut.thrown ≠ .ok "newAT"
    ∧ (stravaRefreshVariantPost "id" "sec"
        (storeSet emptyStore "strava:refresh_token" "rt0") false
        (fun _ => .ok ⟨"newAT", "newRT"⟩) false).1 = .ok "newAT" := by
  decide

/-- C8 (amended): in the primary Strava refresh endpoint
(`index.post.ts`) a failure to persist the refreshed token pair is caught and
logged and the endpoint still returns the new access token, leaving the store
unchanged; in the `part_000` variant the awaited un-caught `mset` makes the
same persist failure reject the request instead. -/
theorem claim8_theorem (cid csec env : String) (σ : Store)
    (exchange : String → Except Unit TokenPair) (rt : String) (pair : TokenPair)
    (hcid : cid ≠ "") (hcsec : csec ≠ "")
    (hσ : σ "strava:refresh_token" = some rt) (hrt : rt ≠ "")
    (hex : exchange rt = .ok pair) :
    (∀ msetFail, (stravaRefreshPost cid csec env σ false exchange msetFail).1
        = .ok pair.access_token)
    ∧ (stravaRefreshPost cid csec env σ false exchange true).2 = σ
    ∧ (stravaRefreshVariantPost cid csec σ false exchange true).1 = .thrown
    ∧ (stravaRefreshVariantPost cid csec σ false exchange true).2 = σ := by
  have hprim : ∀ m, stravaRefreshPost cid csec env σ false exchange m
      = (.ok pair.access_token,
          if m then σ
          else storeSet (storeSet σ "strava:access_token" pair.access_token)
            "strava:refresh_token" pair.refresh_token) := by
    intro m
    unfold stravaRefreshPost
    rw [if_neg (not_or.mpr ⟨hcid, hcsec⟩)]
    simp only [Bool.false_eq_true, if_false]
    rw [hσ]
    dsimp only
    rw [if_neg hrt]
    dsimp only
    rw [hex]
  have hvar : stravaRefreshVariantPost cid csec σ false exchange true = (.thrown, σ) := by
    unfold stravaRefreshVariantPost
    rw [if_neg (not_or.mpr ⟨hcid, hcsec⟩)]
    simp only [Bool.false_eq_true, if_false]
    rw [hσ]
    dsimp only
    rw [if_neg hrt, hex]
    rfl
  refine ⟨fun m => by rw [hprim m], by rw [hprim true]; rfl, by rw [hvar], by rw [hvar]⟩

/-- C8 witness: concrete configuration and token exchange; the primary
handler returns the new access token even when the persist fails. -/
theorem claim8_witness :
    (("id" : String) ≠ "")
    ∧ (("sec" : String) ≠ "")
    ∧ (storeSet emptyStore "strava:refresh_token" "rt0" "strava:refresh_token" = some "rt0")
    ∧ (("rt0" : String) ≠ "")
    ∧ ((fun _ => .ok ⟨"newAT", "newRT"⟩ : String → Except Unit TokenPair) "rt0"
        = .ok ⟨"newAT", "newRT"⟩)
    ∧ (stravaRefreshPost "id" "sec" "envRT"
          (storeSet emptyStore "strava:refresh_token" "rt0") false
          (fun _ => .ok ⟨"newAT", "newRT"⟩) true).1
        = .ok (TokenPair.mk "newAT" "newRT").access_token :=
  ⟨by decide, by decide, rfl, by decide, rfl,
    ( claim8_theorem "id" "sec" "envRT" (storeSet emptyStore "strava:refresh_token" "rt0")
        (fun _ => .ok ⟨"newAT", "newRT"⟩) "rt0" ⟨"newAT", "newRT"⟩
        (by decide) (by decide) rfl (by decide) rfl).1 true⟩

/-- The crates.io `while (url)` loop refines the spec's paginated pull: any
terminating successful run starting from a truthy URL follows the
continuation tokens exactly (`CargoChain`).  (This is the half of C2 that the
code gets right; the GitHub half is refuted by the C2 theorem.) -/
theorem cargoLoop_follows_chain (fetchU : String → Except Unit CargoResponse) :
    ∀ (fuel : Nat) (u : String) (us : List String) (ps : List CargoPackage), u ≠ "" →
      cargoFetchLoop fetchU (some u) fuel = some (.ok (us, ps)) →
      CargoChain fetchU u us ps := by
  have hempty : ∀ fuel, cargoFetchLoop fetchU (some "") fuel = some (.ok ([], [])) := by
    intro fuel
    cases fuel <;> simp [cargoFetchLoop]
  have hnone : ∀ fuel, cargoFetchLoop fetchU none fuel = some (.ok ([], [])) := by
    intro fuel
    cases fuel <;> rfl
  intro fuel
  induction fuel with
  | zero =>
    intro u us ps hu h
    rw [cargoFetchLoop, if_neg hu] at h
    exact absurd h (by simp)
  | succ fuel ih =>
    intro u us ps hu h
    rw [cargoFetchLoop, if_neg hu] at h
    cases hf : fetchU u with
    | error e => rw [hf] at h; simp at h
    | ok r =>
      rw [hf] at h
      dsimp only at h
      cases hn : r.next_page with
      | none =>
        rw [hn] at h
        rw [hnone fuel] at h
        simp only [Option.some.injEq, Except.ok.injEq, Prod.mk.injEq] at h
        rw [← h.1, ← h.2, List.append_nil]
        exact .last u r hf hn
      | some v =>
        by_cases hv : v = ""
        · subst hv
          rw [hn, hempty fuel] at h
          simp only [Option.some.injEq, Except.ok.injEq, Prod.mk.injEq] at h
          rw [← h.1, ← h.2, List.append_nil]
          exact .stop u r hf hn
        · rw [hn] at h
          cases hrec : cargoFetchLoop fetchU (some v) fuel with
          | none => rw [hrec] at h; simp at h
          | some r2 =>
            cases r2 with
            | error e => rw [hrec] at h; simp at h
            | ok p =>
              obtain ⟨us', ps'⟩ := p
              rw [hrec] at h
              simp only [Option.some.injEq, Except.ok.injEq, Prod.mk.injEq] at h
              rw [← h.1, ← h.2]
              exact .step u v r us' ps' hf hn hv (ih v us' ps' hv hrec)
